import Mathlib

/-!
Verification development for the `autofigure-svg` job supervisor
(`src/server.py`): job lifecycle, process monitoring with timeout
enforcement, the replay-capable per-job event bus, incremental artifact
discovery, cancellation, and retention-based cleanup.

The Python code is embedded shallowly:
* events pushed on a job's bus become the inductive type `Ev`;
* the artifact classifier `_classify_artifact` and the scanner
  `_scan_artifacts` become pure Lean functions over lists of relative
  paths (the filesystem snapshot is a list of existing relative paths);
* the monitor thread `_monitor_job` becomes a function from a trace of
  per-cycle observations (elapsed wall-clock time, process liveness,
  filesystem snapshot) to the list of events it publishes and the final
  job state; the concurrent stdout/stderr drain threads are not part of
  this sequential embedding (they only publish `log` events);
* the SSE replay branch of `stream_events`, `cancel_job`,
  `_cleanup_old_jobs` and `get_artifact` become pure functions on
  explicit job/registry state.  Python `str.startswith` used by
  `get_artifact` is modelled as a character-sequence prefix test.
-/

namespace AutofigureSvg

/-- `JOB_TIMEOUT_SECONDS = 600` from `server.py`. -/
def JOB_TIMEOUT_SECONDS : Nat := 600

/-- `JOB_RETENTION_SECONDS = 3600` from `server.py`. -/
def JOB_RETENTION_SECONDS : Nat := 3600

/-- An event published on a job's bus (`Job.push`): the event name plus the
payload fields the server actually sends. `code` is `Option Int` because
`process.returncode` can be `None`. -/
inductive Ev where
  | status (state : String) (code : Option Int) (error : Option String)
  | log (stream line : String)
  | artifact (kind name path url : String)
  | close
deriving DecidableEq, Repr

def Ev.isStatus : Ev → Bool
  | .status _ _ _ => true
  | _ => false

def Ev.isArtifact : Ev → Bool
  | .artifact _ _ _ _ => true
  | _ => false

def Ev.isClose : Ev → Bool
  | .close => true
  | _ => false

def Ev.isFinishedStatus : Ev → Bool
  | .status s _ _ => s == "finished"
  | _ => false

/-- Relative path carried by an `artifact` event. -/
def Ev.path : Ev → Option String
  | .artifact _ _ p _ => some p
  | _ => none

/-- Kind tag carried by an `artifact` event. -/
def Ev.kind : Ev → Option String
  | .artifact k _ _ _ => some k
  | _ => none

/-- Python `str.startswith`: a prefix test on the character sequence. -/
def strStartsWith (s t : String) : Bool :=
  t.data.isPrefixOf s.data

/-- Python `str.endswith`: a suffix test on the character sequence. -/
def strEndsWith (s t : String) : Bool :=
  t.data.isSuffixOf s.data

/-- Splitting a character sequence at `/` (accumulator holds the current
segment reversed). -/
def splitSlashAux : List Char → List Char → List (List Char)
  | [], acc => [acc.reverse]
  | c :: cs, acc =>
    if c = '/' then acc.reverse :: splitSlashAux cs []
    else splitSlashAux cs (c :: acc)

/-- Python `str.split("/")` on the character sequence. -/
def splitSlash (s : String) : List String :=
  (splitSlashAux s.data []).map String.mk

/-- `_classify_artifact` from `server.py`, clause for clause. -/
def _classify_artifact (rel_path : String) : String :=
  if rel_path = "figure.png" then "figure"
  else if rel_path = "samed.png" then "samed"
  else if strEndsWith rel_path "_nobg.png" then "icon_nobg"
  else if strStartsWith rel_path "icons/" && strEndsWith rel_path ".png" then "icon_raw"
  else if rel_path = "template.svg" then "template_svg"
  else if rel_path = "optimized_template.svg" then "optimized_svg"
  else if rel_path = "final.svg" then "final_svg"
  else "artifact"

/-- `Path(rel).name`: the last component of a `/`-separated relative path. -/
def pathName (rel : String) : String :=
  (splitSlash rel).getLastD rel

/-- The payload of the `artifact` event `_scan_artifacts` publishes for a
newly discovered relative path. -/
def artifactEvent (job_id rel : String) : Ev :=
  .artifact (_classify_artifact rel) (pathName rel) rel
    ("/api/artifacts/" ++ job_id ++ "/" ++ rel)

/-- The fixed candidate list of `_scan_artifacts` (relative to the job's
output directory). -/
def fixedCandidates : List String :=
  ["figure.png", "samed.png", "template.svg", "optimized_template.svg", "final.svg"]

/-- A relative path produced by the glob `icons_dir.glob("icon_*.png")`:
directly inside `icons/`, named `icon_*.png` (the glob star does not cross
a path separator). -/
def isIconCandidate (p : String) : Bool :=
  strStartsWith p "icons/icon_" && strEndsWith p ".png" &&
    ((p.data.drop 6).all fun c => c != '/')

/-- The candidate loop of `_scan_artifacts`: walk the candidate list; skip
paths that are not files (`fs` is the snapshot of existing relative paths)
and paths already in `seen`; otherwise add to `seen` and publish an
`artifact` event.  Returns the new `seen` and the published events, in
publish order. -/
def scanFrom (job_id : String) (fs : List String) :
    List String → List String → List String × List Ev
  | [], seen => (seen, [])
  | rel :: rest, seen =>
    if fs.contains rel = false then scanFrom job_id fs rest seen
    else if seen.contains rel then scanFrom job_id fs rest seen
    else
      let r := scanFrom job_id fs rest (rel :: seen)
      (r.1, artifactEvent job_id rel :: r.2)

/-- `_scan_artifacts` from `server.py`: the fixed candidates followed by
the `icons/icon_*.png` glob results, deduplicated against `seen`. -/
def _scan_artifacts (job_id : String) (fs : List String) (seen : List String) :
    List String × List Ev :=
  scanFrom job_id fs (fixedCandidates ++ fs.filter isIconCandidate) seen

/-- One iteration's worth of observations made by the monitor loop:
`elapsed = time.time() - job.started_at`, `alive = (process.poll() is
None)` (one poll observation per cycle), and the filesystem snapshot the
artifact scan sees. -/
structure Cycle where
  elapsed : Nat
  alive : Bool
  files : List String
deriving DecidableEq, Repr

/-- Mutable state threaded through the monitor's `while True` loop:
the debounce counter `idle_cycles`, `job.seen`, and the events pushed so
far. -/
structure LoopState where
  idle : Nat
  seen : List String
  events : List Ev
deriving DecidableEq, Repr

/-- The `while True` loop of `_monitor_job`, cycle for cycle: scan for
artifacts; if the timeout budget is exceeded while the process is alive,
terminate it and break with `timed_out = true`; otherwise update the
debounce counter (`poll() is not None` increments, alive resets to 0) and
break once it reaches 4.  Returns `none` if the observation trace ends
before the loop breaks; otherwise `(timed_out, final state, unconsumed
cycles)`. -/
def runLoop (job_id : String) : LoopState → List Cycle →
    Option (Bool × LoopState × List Cycle)
  | _, [] => none
  | st, c :: rest =>
    if c.elapsed > JOB_TIMEOUT_SECONDS && c.alive then
      some (true, ⟨st.idle, (_scan_artifacts job_id c.files st.seen).1,
        st.events ++ (_scan_artifacts job_id c.files st.seen).2⟩, rest)
    else if (if c.alive then 0 else st.idle + 1) ≥ 4 then
      some (false, ⟨(if c.alive then 0 else st.idle + 1),
        (_scan_artifacts job_id c.files st.seen).1,
        st.events ++ (_scan_artifacts job_id c.files st.seen).2⟩, rest)
    else
      runLoop job_id ⟨(if c.alive then 0 else st.idle + 1),
        (_scan_artifacts job_id c.files st.seen).1,
        st.events ++ (_scan_artifacts job_id c.files st.seen).2⟩ rest

/-- Python truthiness of `process.returncode` (`None` and `0` are falsy),
as used in `returncode and returncode != 0 and last_stderr`. -/
def rcTruthy : Option Int → Bool
  | some c => c != 0
  | none => false

/-- The fixed timeout message of `_monitor_job`
(`JOB_TIMEOUT_SECONDS // 60` minutes). -/
def timeoutError : String :=
  "任务超时（超过 " ++ toString (JOB_TIMEOUT_SECONDS / 60) ++ " 分钟），已自动终止。"

/-- The terminal `status` event built by `_monitor_job`: on timeout the
fixed `code = -1` / timeout-message payload, otherwise the process return
code with `last_stderr` as error exactly when the return code is truthy,
nonzero, and the stderr line is nonempty. -/
def finishedEvent (timed_out : Bool) (returncode : Option Int)
    (last_stderr : String) : Ev :=
  if timed_out then .status "finished" (some (-1)) (some timeoutError)
  else .status "finished" returncode
    (if rcTruthy returncode && (last_stderr != "") then some last_stderr else none)

/-- The final `artifact` event `_monitor_job` publishes for the run log
(`job.log_path` is `output_dir / "run.log"`, so both the relative path and
the name are `run.log`). -/
def runLogEvent (job_id : String) : Ev :=
  .artifact "log" "run.log" "run.log" ("/api/artifacts/" ++ job_id ++ "/run.log")

/-- The fields of a finished `Job` that the replay, cancellation and
cleanup paths read. -/
structure FinalJob where
  job_id : String
  seen : List String
  done : Bool
  returncode : Option Int
  last_stderr : String
  finished_at : Nat
deriving DecidableEq, Repr

/-- Inputs of one `_monitor_job` run that the embedding takes as given:
the per-cycle observations, the filesystem snapshot of the final
post-loop scan, the process return code on the natural-exit path
(`poll()` returned it), the return code visible after a timeout
termination (`none` if `kill()` fired and the code was never collected),
the drained `last_stderr`, and `time.time()` at finalization. -/
structure MonitorInput where
  job_id : String
  cycles : List Cycle
  finalFs : List String
  exitCode : Int
  termCode : Option Int
  exitStderr : String
  endTime : Nat
deriving DecidableEq, Repr

/-- What one `_monitor_job` run publishes and leaves behind.  `preDone`
are the events pushed before `job.done = True` is assigned, `postDone`
those pushed after it (`_monitor_job` pushes only `close` there).
`terminated` records whether the monitor called `process.terminate()`
(the timeout path). -/
structure MonitorResult where
  preDone : List Ev
  postDone : List Ev
  timed_out : Bool
  terminated : Bool
  job : FinalJob
deriving DecidableEq, Repr

/-- `_monitor_job` from `server.py` as a sequential function: push the
`started` status, run the polling loop, run one final artifact scan,
push the terminal status event, push the run-log artifact event, set
`finished_at` and `done`, then push `close`.  The concurrent
stdout/stderr drain threads (which publish only `log` events) are outside
this sequential embedding. -/
def _monitor_job (inp : MonitorInput) : Option MonitorResult :=
  match runLoop inp.job_id ⟨0, [], []⟩ inp.cycles with
  | none => none
  | some (tout, st, _) =>
    let r := _scan_artifacts inp.job_id inp.finalFs st.seen
    let rc : Option Int := if tout then inp.termCode else some inp.exitCode
    let fin := finishedEvent tout rc inp.exitStderr
    some
      { preDone := Ev.status "started" none none ::
          (st.events ++ r.2 ++ [fin, runLogEvent inp.job_id])
        postDone := [Ev.close]
        timed_out := tout
        terminated := tout
        job := ⟨inp.job_id, r.1, true, rc, inp.exitStderr, inp.endTime⟩ }

/-- The replay branch of `stream_events` (`if job.done:`): one `artifact`
event per path in `job.seen`, rebuilt via `_classify_artifact`, followed
by one `finished` status rebuilt from `process.returncode` and
`last_stderr`; then the stream returns. -/
def replayEvents (job : FinalJob) : List Ev :=
  (job.seen.map fun rel =>
    Ev.artifact (_classify_artifact rel) (pathName rel) rel
      ("/api/artifacts/" ++ job.job_id ++ "/" ++ rel))
  ++ [Ev.status "finished" job.returncode
        (if rcTruthy job.returncode && (job.last_stderr != "") then
          some job.last_stderr
        else none)]

/-- Outcome reported by `POST /api/cancel/{job_id}`. -/
inductive CancelStatus where
  | notFound
  | alreadyFinished
  | cancelled
deriving DecidableEq, Repr

/-- Effect of one `cancel_job` call: the reported status, whether
`process.terminate()` was requested, and the registry afterwards. -/
structure CancelEffect where
  status : CancelStatus
  terminateRequested : Bool
  jobs : List (String × FinalJob)
deriving DecidableEq, Repr

/-- `cancel_job` from `server.py`: unknown id → 404; `job.done` →
`already_finished` and nothing happens; otherwise `process.terminate()`
is requested and nothing else (in particular `done` is left to the
monitor loop). -/
def cancel_job (jobs : List (String × FinalJob)) (job_id : String) : CancelEffect :=
  match jobs.lookup job_id with
  | none => ⟨.notFound, false, jobs⟩
  | some j =>
    if j.done then ⟨.alreadyFinished, false, jobs⟩
    else ⟨.cancelled, true, jobs⟩

/-- `_cleanup_old_jobs` from `server.py`: drop every registry entry with
`done` set, a positive `finished_at`, and `now - finished_at` beyond the
retention window; keep everything else untouched.  The function reads and
writes only the in-memory registry. -/
def _cleanup_old_jobs (now : Nat) (jobs : List (String × FinalJob)) :
    List (String × FinalJob) :=
  jobs.filter fun p =>
    !(p.2.done && decide (0 < p.2.finished_at)
      && decide (now - p.2.finished_at > JOB_RETENTION_SECONDS))

/-- `Path.resolve()` on `base` extended by further segments: empty and
`.` segments vanish, `..` removes the last segment (staying at the root
below it).  Symbolic links are outside the model. -/
def resolveSegs : List String → List String → List String
  | acc, [] => acc
  | acc, s :: rest =>
    if s = "" || s = "." then resolveSegs acc rest
    else if s = ".." then resolveSegs acc.dropLast rest
    else resolveSegs (acc ++ [s]) rest

/-- `str(Path)` for an absolute path given by its segments: `/a/b/c` as a
character sequence. -/
def pathChars : List String → List Char
  | [] => []
  | s :: rest => '/' :: s.data ++ pathChars rest

/-- `candidate` is inside the directory `dir` (or equal to it): the
segment lists extend. -/
def segsUnder (dir cand : List String) : Bool :=
  dir.isPrefixOf cand

/-- Response of `GET /api/artifacts/{job_id}/{path}`. -/
inductive ArtifactResponse where
  | notFound
  | invalidPath
  | fileMissing
  | file (segs : List String)
deriving DecidableEq, Repr

/-- The resolved candidate `(job.output_dir / path).resolve()` for a job
whose output directory is `outRoot ++ [job_id]`. -/
def artifactCandidate (outRoot : List String) (job_id path : String) :
    List String :=
  resolveSegs (outRoot ++ [job_id]) (splitSlash path)

/-- `get_artifact` from `server.py`: look the job up, resolve
`output_dir / path`, reject with 400 unless
`str(candidate).startswith(str(output_dir.resolve()))`, then 404 unless
the candidate is an existing file (`fs` is the set of files on disk,
given as resolved segment lists).  Relative `path` inputs only; the check
is the literal string-prefix comparison of the source. -/
def get_artifact (outRoot : List String) (jobs : List (String × FinalJob))
    (fs : List (List String)) (job_id path : String) : ArtifactResponse :=
  match jobs.lookup job_id with
  | none => .notFound
  | some _ =>
    let outDir := outRoot ++ [job_id]
    let candidate := artifactCandidate outRoot job_id path
    if (pathChars outDir).isPrefixOf (pathChars candidate) = false then
      .invalidPath
    else if fs.contains candidate = false then .fileMissing
    else .file candidate

/-- The classifier the way the specification words it: exact filename
matches first, then the `_nobg.png` suffix pattern, then the `icons/`
prefix pattern, then the generic fallback.  Stated for comparison with
`_classify_artifact`, which checks the patterns before the three `.svg`
exact names. -/
def classifySpec (p : String) : String :=
  if p = "figure.png" then "figure"
  else if p = "samed.png" then "samed"
  else if p = "template.svg" then "template_svg"
  else if p = "optimized_template.svg" then "optimized_svg"
  else if p = "final.svg" then "final_svg"
  else if strEndsWith p "_nobg.png" then "icon_nobg"
  else if strStartsWith p "icons/" && strEndsWith p ".png" then "icon_raw"
  else "artifact"

/-- The closed set of kind tags. -/
def kindTags : List String :=
  ["figure", "samed", "icon_nobg", "icon_raw", "template_svg",
   "optimized_svg", "final_svg", "artifact"]

/-- A concrete monitor input: four not-alive cycles, nothing on disk. -/
def c1Inp : MonitorInput :=
  ⟨"jw", [⟨0, false, []⟩, ⟨1, false, []⟩, ⟨2, false, []⟩, ⟨3, false, []⟩],
    [], 0, none, "", 5⟩

/-- The monitor result on `c1Inp`. -/
def c1Res : MonitorResult :=
  ⟨[.status "started" none none, .status "finished" (some 0) none,
    .artifact "log" "run.log" "run.log" "/api/artifacts/jw/run.log"],
   [.close], false, false, ⟨"jw", [], true, some 0, "", 5⟩⟩

/-- A concrete monitor input that discovers `figure.png` in its first
cycle. -/
def c10Inp : MonitorInput :=
  ⟨"kw", [⟨0, false, ["figure.png"]⟩, ⟨1, false, []⟩, ⟨2, false, []⟩,
    ⟨3, false, []⟩], [], 0, none, "", 7⟩

/-- The monitor result on `c10Inp`. -/
def c10Res : MonitorResult :=
  ⟨[.status "started" none none,
    .artifact "figure" "figure.png" "figure.png" "/api/artifacts/kw/figure.png",
    .status "finished" (some 0) none,
    .artifact "log" "run.log" "run.log" "/api/artifacts/kw/run.log"],
   [.close], false, false, ⟨"kw", ["figure.png"], true, some 0, "", 7⟩⟩

/-- A concrete monitor input whose first cycle trips the timeout (the
process is alive with 601s elapsed); termination collects return code
`-15` and the drain captured `boom` on stderr. -/
def c3Inp : MonitorInput :=
  ⟨"tw", [⟨601, true, []⟩], [], 0, some (-15), "boom", 9⟩

/-- The monitor result on `c3Inp`. -/
def c3Res : MonitorResult :=
  ⟨[.status "started" none none,
    .status "finished" (some (-1)) (some timeoutError),
    .artifact "log" "run.log" "run.log" "/api/artifacts/tw/run.log"],
   [.close], true, true, ⟨"tw", [], true, some (-15), "boom", 9⟩⟩

/-- A concrete registry: an expired finished job, a recently finished
job, and a still-running job. -/
def c8Jobs : List (String × FinalJob) :=
  [("a", ⟨"a", [], true, some 0, "", 100⟩),
   ("b", ⟨"b", [], true, some 0, "", 9000⟩),
   ("c", ⟨"c", [], false, none, "", 0⟩)]

section Theorems

/-- `_classify_artifact` always lands in the closed tag set. -/
theorem classify_mem_kindTags (p : String) : _classify_artifact p ∈ kindTags := by
  unfold _classify_artifact kindTags
  split_ifs <;> simp

/-- `_classify_artifact` never returns the run-log tag `"log"`. -/
theorem classify_ne_log (p : String) : _classify_artifact p ≠ "log" := by
  unfold _classify_artifact
  split_ifs <;> decide

/-- C9: The artifact classifier is a pure total function into the closed
set of kind tags, and it agrees everywhere with the mapping as the claim
states it (exact filename matches taking precedence over the suffix and
`icons/` patterns): `figure.png ↦ figure`, `samed.png ↦ samed`,
`template.svg ↦ template_svg`, `optimized_template.svg ↦ optimized_svg`,
`final.svg ↦ final_svg`, other `*_nobg.png ↦ icon_nobg`, other
`icons/*.png ↦ icon_raw`, everything else `↦ artifact`. -/
theorem c9_classifier (p : String) :
    _classify_artifact p = classifySpec p ∧ _classify_artifact p ∈ kindTags := by
  refine ⟨?_, classify_mem_kindTags p⟩
  by_cases h1 : p = "figure.png"
  · subst h1; decide
  by_cases h2 : p = "samed.png"
  · subst h2; decide
  by_cases h3 : p = "template.svg"
  · subst h3; decide
  by_cases h4 : p = "optimized_template.svg"
  · subst h4; decide
  by_cases h5 : p = "final.svg"
  · subst h5; decide
  simp only [_classify_artifact, classifySpec, if_neg h1, if_neg h2,
    if_neg h3, if_neg h4, if_neg h5]

/-- Paths already in `seen` survive a scan. -/
theorem scanFrom_subset_seen (jid : String) (fs : List String) :
    ∀ (cands seen : List String), seen ⊆ (scanFrom jid fs cands seen).1 := by
  intro cands
  induction cands with
  | nil => intro seen; simp [scanFrom]
  | cons rel rest ih =>
    intro seen
    simp only [scanFrom]
    split
    · exact ih seen
    · split
      · exact ih seen
      · exact fun x hx => ih (rel :: seen) (List.mem_cons_of_mem rel hx)

/-- Every path a scan adds to `seen` comes from the candidate list. -/
theorem scanFrom_seen_from (jid : String) (fs : List String) :
    ∀ (cands seen : List String) (x : String),
      x ∈ (scanFrom jid fs cands seen).1 → x ∈ seen ∨ x ∈ cands := by
  intro cands
  induction cands with
  | nil => intro seen x hx; simp [scanFrom] at hx; exact Or.inl hx
  | cons rel rest ih =>
    intro seen x hx
    simp only [scanFrom] at hx
    split at hx
    · rcases ih seen x hx with h | h
      · exact Or.inl h
      · exact Or.inr (List.mem_cons_of_mem rel h)
    · split at hx
      · rcases ih seen x hx with h | h
        · exact Or.inl h
        · exact Or.inr (List.mem_cons_of_mem rel h)
      · rcases ih (rel :: seen) x hx with h | h
        · rcases List.mem_cons.1 h with h' | h'
          · exact Or.inr (h' ▸ List.mem_cons_self rel rest)
          · exact Or.inl h'
        · exact Or.inr (List.mem_cons_of_mem rel h)

/-- Every event a scan publishes is the artifact event of some candidate
that exists on disk. -/
theorem scanFrom_events_shape (jid : String) (fs : List String) :
    ∀ (cands seen : List String) (e : Ev),
      e ∈ (scanFrom jid fs cands seen).2 →
        ∃ rel, rel ∈ cands ∧ rel ∈ fs ∧ e = artifactEvent jid rel := by
  intro cands
  induction cands with
  | nil => intro seen e he; simp [scanFrom] at he
  | cons rel rest ih =>
    intro seen e he
    simp only [scanFrom] at he
    split at he
    · obtain ⟨r, hr, hrf, hre⟩ := ih seen e he
      exact ⟨r, List.mem_cons_of_mem rel hr, hrf, hre⟩
    · rename_i hmem
      split at he
      · obtain ⟨r, hr, hrf, hre⟩ := ih seen e he
        exact ⟨r, List.mem_cons_of_mem rel hr, hrf, hre⟩
      · rcases List.mem_cons.1 he with h' | h'
        · refine ⟨rel, List.mem_cons_self rel rest, ?_, h'⟩
          have : ¬ (fs.contains rel = false) := hmem
          simpa using this
        · obtain ⟨r, hr, hrf, hre⟩ := ih (rel :: seen) e h'
          exact ⟨r, List.mem_cons_of_mem rel hr, hrf, hre⟩

/-- The paths of the events published by one scan are pairwise distinct
and none of them was in `seen` before the scan. -/
theorem scanFrom_paths_nodup_fresh (jid : String) (fs : List String) :
    ∀ (cands seen : List String),
      ((scanFrom jid fs cands seen).2.filterMap Ev.path).Nodup ∧
      ∀ p ∈ (scanFrom jid fs cands seen).2.filterMap Ev.path, p ∉ seen := by
  intro cands
  induction cands with
  | nil => intro seen; simp [scanFrom]
  | cons rel rest ih =>
    intro seen
    simp only [scanFrom]
    split
    · exact ih seen
    · split
      · exact ih seen
      · rename_i hseen
        obtain ⟨hnd, hfresh⟩ := ih (rel :: seen)
        have hpath : (artifactEvent jid rel).path = some rel := rfl
        constructor
        · simp only [List.filterMap_cons, hpath, List.nodup_cons]
          refine ⟨fun hc => ?_, hnd⟩
          exact hfresh rel hc (List.mem_cons_self rel seen)
        · intro p hp
          simp only [List.filterMap_cons, hpath, List.mem_cons] at hp
          rcases hp with h' | h'
          · subst h'
            intro hmem
            exact hseen (by simpa using hmem)
          · exact fun hmem =>
              hfresh p h' (List.mem_cons_of_mem rel hmem)

/-- Every path published by a scan ends up in the resulting `seen`. -/
theorem scanFrom_paths_subset (jid : String) (fs : List String) :
    ∀ (cands seen : List String) (p : String),
      p ∈ (scanFrom jid fs cands seen).2.filterMap Ev.path →
        p ∈ (scanFrom jid fs cands seen).1 := by
  intro cands
  induction cands with
  | nil => intro seen p hp; simp [scanFrom] at hp
  | cons rel rest ih =>
    intro seen p hp
    simp only [scanFrom] at hp ⊢
    split at hp
    · rename_i h1
      rw [if_pos h1]
      exact ih seen p hp
    · rename_i h1
      rw [if_neg h1]
      split at hp
      · rename_i h2
        rw [if_pos h2]
        exact ih seen p hp
      · rename_i h2
        rw [if_neg h2]
        have hpath : (artifactEvent jid rel).path = some rel := rfl
        simp only [List.filterMap_cons, hpath, List.mem_cons] at hp
        rcases hp with h' | h'
        · exact h' ▸ scanFrom_subset_seen jid fs rest (rel :: seen)
            (List.mem_cons_self rel seen)
        · exact ih (rel :: seen) p h'

/-- A candidate that exists on disk is in `seen` after the scan. -/
theorem scanFrom_complete (jid : String) (fs : List String) :
    ∀ (cands seen : List String) (rel : String),
      rel ∈ cands → rel ∈ fs → rel ∈ (scanFrom jid fs cands seen).1 := by
  intro cands
  induction cands with
  | nil => intro seen rel hc; simp at hc
  | cons c rest ih =>
    intro seen rel hc hfs
    simp only [scanFrom]
    rcases List.mem_cons.1 hc with h' | h'
    · subst h'
      split
      · rename_i hcontains
        exact absurd (by simpa using hcontains) (by simpa using hfs)
      · split
        · rename_i hseen
          exact scanFrom_subset_seen jid fs rest seen (by simpa using hseen)
        · exact scanFrom_subset_seen jid fs rest (rel :: seen)
            (List.mem_cons_self rel seen)
    · split
      · exact ih seen rel h' hfs
      · split
        · exact ih seen rel h' hfs
        · exact ih (c :: seen) rel h' hfs

/-- A scan whose existing candidates are all already in `seen` is a
no-op. -/
theorem scanFrom_noop (jid : String) (fs : List String) :
    ∀ (cands seen : List String),
      (∀ rel ∈ cands, rel ∈ fs → rel ∈ seen) →
      scanFrom jid fs cands seen = (seen, []) := by
  intro cands
  induction cands with
  | nil => intro seen _; simp [scanFrom]
  | cons rel rest ih =>
    intro seen h
    simp only [scanFrom]
    split
    · exact ih seen fun r hr hrf => h r (List.mem_cons_of_mem rel hr) hrf
    · rename_i hcontains
      have hmem : rel ∈ fs := by simpa using hcontains
      have hseen : rel ∈ seen := h rel (List.mem_cons_self rel rest) hmem
      rw [if_pos (by simpa using hseen)]
      exact ih seen fun r hr hrf => h r (List.mem_cons_of_mem rel hr) hrf

/-- C5: `seen` only grows across scanner invocations, the paths of the
artifact events of one scan are pairwise distinct and disjoint both from
`seen` and from the events of any later scan, and re-running the scanner
when no new files exist publishes nothing and leaves `seen` unchanged. -/
theorem c5_scanner (jid : String) (fs seen : List String) :
    (∀ x ∈ seen, x ∈ (_scan_artifacts jid fs seen).1) ∧
    ((_scan_artifacts jid fs seen).2.filterMap Ev.path).Nodup ∧
    (∀ p ∈ (_scan_artifacts jid fs seen).2.filterMap Ev.path, p ∉ seen) ∧
    (∀ (fs2 : List String) (p : String),
      p ∈ (_scan_artifacts jid fs2 (_scan_artifacts jid fs seen).1).2.filterMap Ev.path →
      p ∉ (_scan_artifacts jid fs seen).2.filterMap Ev.path) ∧
    _scan_artifacts jid fs (_scan_artifacts jid fs seen).1 =
      ((_scan_artifacts jid fs seen).1, []) := by
  refine ⟨fun x hx => scanFrom_subset_seen jid fs _ seen hx,
    (scanFrom_paths_nodup_fresh jid fs _ seen).1,
    (scanFrom_paths_nodup_fresh jid fs _ seen).2, ?_, ?_⟩
  · intro fs2 p hp2 hp1
    exact (scanFrom_paths_nodup_fresh jid fs2 _ _).2 p hp2
      (scanFrom_paths_subset jid fs _ seen p hp1)
  · apply scanFrom_noop
    intro rel hc hfs
    rcases List.mem_append.1 hc with h' | h'
    · exact scanFrom_complete jid fs _ seen rel (List.mem_append_left _ h') hfs
    · exact scanFrom_complete jid fs _ seen rel
        (List.mem_append_right _ h') hfs

/-- Witness for C5 at a concrete scan: a prior entry survives, and the
repeated scan with the same snapshot is a no-op. -/
theorem c5_scanner_witness :
    "samed.png" ∈ (_scan_artifacts "j" ["figure.png"] ["samed.png"]).1 ∧
    _scan_artifacts "j" ["figure.png"]
        (_scan_artifacts "j" ["figure.png"] ["samed.png"]).1 =
      ((_scan_artifacts "j" ["figure.png"] ["samed.png"]).1, []) :=
  ⟨(c5_scanner "j" ["figure.png"] ["samed.png"]).1 "samed.png" (by decide),
   (c5_scanner "j" ["figure.png"] ["samed.png"]).2.2.2.2⟩

/-- Debounce invariant of the monitor loop: when the loop breaks on the
`EXITED` side, the cycles it consumed end in a block of consecutive
not-alive observations; the block has length 4 unless the counter was
already positive on entry, in which case fewer (all-not-alive) cycles
suffice. -/
theorem runLoop_exited_debounce (jid : String) :
    ∀ (cs : List Cycle) (st st' : LoopState) (rest : List Cycle),
      runLoop jid st cs = some (false, st', rest) →
      ∃ pre, cs = pre ++ rest ∧
        ((4 ≤ pre.length ∧ ∀ c ∈ pre.drop (pre.length - 4), c.alive = false) ∨
         (pre.length < 4 ∧ 4 ≤ pre.length + st.idle ∧
           ∀ c ∈ pre, c.alive = false)) := by
  intro cs
  induction cs with
  | nil => intro st st' rest h; simp [runLoop] at h
  | cons c cs ih =>
    intro st st' rest h
    simp only [runLoop] at h
    split at h
    · simp at h
    · rename_i htimeout
      by_cases ha : c.alive = true
      · rw [if_pos ha] at h
        norm_num at h
        obtain ⟨pre', hpre', hcase⟩ := ih _ st' rest h
        refine ⟨c :: pre', by simp [hpre'], ?_⟩
        rcases hcase with ⟨hlen, hblock⟩ | ⟨hlt, hge, _⟩
        · refine Or.inl ⟨by simpa using Nat.le_succ_of_le hlen, ?_⟩
          intro x hx
          apply hblock x
          have h4 : (c :: pre').length - 4 = (pre'.length - 4) + 1 := by
            simp only [List.length_cons]
            omega
          rw [h4] at hx
          simpa using hx
        · dsimp only at hge
          omega
      · rw [if_neg ha] at h
        have ha' : c.alive = false := by
          cases hc : c.alive
          · rfl
          · exact absurd hc ha
        by_cases hge : st.idle + 1 ≥ 4
        · rw [if_pos hge] at h
          obtain ⟨-, -, hrest⟩ : False = false ∧
              (⟨st.idle + 1, (_scan_artifacts jid c.files st.seen).1,
                st.events ++ (_scan_artifacts jid c.files st.seen).2⟩ :
                LoopState) = st' ∧ cs = rest := by
            simpa using h
          refine ⟨[c], by simp [hrest], Or.inr ?_⟩
          refine ⟨by simp, by simp; omega, ?_⟩
          intro x hx
          rw [List.mem_singleton] at hx
          exact hx ▸ ha'
        · rw [if_neg hge] at h
          obtain ⟨pre', hpre', hcase⟩ := ih _ st' rest h
          refine ⟨c :: pre', by simp [hpre'], ?_⟩
          rcases hcase with ⟨hlen, hblock⟩ | ⟨hlt, hge', hall⟩
          · refine Or.inl ⟨by simpa using Nat.le_succ_of_le hlen, ?_⟩
            intro x hx
            apply hblock x
            have h4 : (c :: pre').length - 4 = (pre'.length - 4) + 1 := by
              simp only [List.length_cons]
              omega
            rw [h4] at hx
            simpa using hx
          · by_cases hl : 4 ≤ (c :: pre').length
            · refine Or.inl ⟨hl, ?_⟩
              intro x hx
              have hx' : x ∈ c :: pre' := List.mem_of_mem_drop hx
              rcases List.mem_cons.1 hx' with h' | h'
              · exact h' ▸ ha'
              · exact hall x h'
            · refine Or.inr ⟨by omega, ?_, ?_⟩
              · simp only [List.length_cons]
                simp only [List.length_cons] at hge'
                omega
              · intro x hx
                rcases List.mem_cons.1 hx with h' | h'
                · exact h' ▸ ha'
                · exact hall x h'

/-- C6: starting from a zero debounce counter (as `_monitor_job` does),
the loop breaks on the `EXITED` side only after at least 4 consumed
cycles whose last 4 all observed the process not alive; and a cycle that
observes the process alive (without tripping the timeout) continues the
loop with the counter reset to zero. -/
theorem c6_debounce :
    (∀ (jid : String) (st : LoopState) (cs : List Cycle) (st' : LoopState)
        (rest : List Cycle), st.idle = 0 →
      runLoop jid st cs = some (false, st', rest) →
      ∃ pre, cs = pre ++ rest ∧ 4 ≤ pre.length ∧
        ∀ c ∈ pre.drop (pre.length - 4), c.alive = false) ∧
    (∀ (jid : String) (st : LoopState) (c : Cycle) (cs : List Cycle),
      c.alive = true → ¬(c.elapsed > JOB_TIMEOUT_SECONDS) →
      runLoop jid st (c :: cs) =
        runLoop jid ⟨0, (_scan_artifacts jid c.files st.seen).1,
          st.events ++ (_scan_artifacts jid c.files st.seen).2⟩ cs) := by
  constructor
  · intro jid st cs st' rest hidle h
    obtain ⟨pre, hpre, hcase⟩ := runLoop_exited_debounce jid cs st st' rest h
    rcases hcase with ⟨hlen, hblock⟩ | ⟨hlt, hge, _⟩
    · exact ⟨pre, hpre, hlen, hblock⟩
    · rw [hidle] at hge
      omega
  · intro jid st c cs ha ht
    simp [runLoop, ha, ht]

/-- Witness for C6: four consecutive not-alive cycles exit the loop, and
an alive cycle recurses with the counter reset. -/
theorem c6_debounce_witness :
    (∃ pre, ([⟨0, false, []⟩, ⟨1, false, []⟩, ⟨2, false, []⟩,
        ⟨3, false, []⟩] : List Cycle) = pre ++ ([] : List Cycle) ∧
      4 ≤ pre.length ∧ ∀ c ∈ pre.drop (pre.length - 4), c.alive = false) ∧
    runLoop "j" ⟨0, [], []⟩ [⟨1, true, []⟩] =
      runLoop "j" ⟨0, (_scan_artifacts "j" [] []).1,
        [] ++ (_scan_artifacts "j" [] []).2⟩ [] :=
  ⟨c6_debounce.1 "j" ⟨0, [], []⟩ _ ⟨4, [], []⟩ [] rfl rfl,
   c6_debounce.2 "j" ⟨0, [], []⟩ ⟨1, true, []⟩ [] rfl (by decide)⟩

/-- Stepping the loop over one cycle: either it breaks immediately with
the scanned state, or it recurses on the scanned state with the updated
debounce counter. -/
theorem runLoop_cons_cases (jid : String) (st : LoopState) (c : Cycle)
    (cs : List Cycle) (t : Bool) (st' : LoopState) (rest : List Cycle)
    (h : runLoop jid st (c :: cs) = some (t, st', rest)) :
    (st'.seen = (_scan_artifacts jid c.files st.seen).1 ∧
     st'.events = st.events ++ (_scan_artifacts jid c.files st.seen).2) ∨
    runLoop jid ⟨(if c.alive then 0 else st.idle + 1),
      (_scan_artifacts jid c.files st.seen).1,
      st.events ++ (_scan_artifacts jid c.files st.seen).2⟩ cs =
      some (t, st', rest) := by
  simp only [runLoop] at h
  by_cases ht : (c.elapsed > JOB_TIMEOUT_SECONDS && c.alive) = true
  · rw [if_pos ht] at h
    simp only [Option.some.injEq, Prod.mk.injEq] at h
    obtain ⟨-, hst, -⟩ := h
    exact Or.inl ⟨by rw [← hst], by rw [← hst]⟩
  · rw [if_neg ht] at h
    by_cases ha : c.alive = true
    · have h0 : (if c.alive = true then 0 else st.idle + 1) = 0 := if_pos ha
      rw [h0] at h
      rw [if_neg (by omega)] at h
      exact Or.inr (by rw [h0]; exact h)
    · have h0 : (if c.alive = true then 0 else st.idle + 1) = st.idle + 1 :=
        if_neg ha
      rw [h0] at h
      by_cases hge : st.idle + 1 ≥ 4
      · rw [if_pos hge] at h
        simp only [Option.some.injEq, Prod.mk.injEq] at h
        obtain ⟨-, hst, -⟩ := h
        exact Or.inl ⟨by rw [← hst], by rw [← hst]⟩
      · rw [if_neg hge] at h
        exact Or.inr (by rw [h0]; exact h)

/-- Every event the loop appends comes from an artifact scan. -/
theorem runLoop_events_shape (jid : String) :
    ∀ (cs : List Cycle) (st : LoopState) (t : Bool) (st' : LoopState)
      (rest : List Cycle),
      runLoop jid st cs = some (t, st', rest) →
      ∀ e ∈ st'.events, e ∈ st.events ∨ ∃ rel, e = artifactEvent jid rel := by
  intro cs
  induction cs with
  | nil => intro st t st' rest h; simp [runLoop] at h
  | cons c cs ih =>
    intro st t st' rest h e he
    rcases runLoop_cons_cases jid st c cs t st' rest h with ⟨-, hev⟩ | hrec
    · rw [hev] at he
      rcases List.mem_append.1 he with h' | h'
      · exact Or.inl h'
      · obtain ⟨rel, -, -, hrel⟩ :=
          scanFrom_events_shape jid c.files _ st.seen e h'
        exact Or.inr ⟨rel, hrel⟩
    · rcases ih _ t st' rest hrec e he with h' | h'
      · rcases List.mem_append.1 h' with h2 | h2
        · exact Or.inl h2
        · obtain ⟨rel, -, -, hrel⟩ :=
            scanFrom_events_shape jid c.files _ st.seen e h2
          exact Or.inr ⟨rel, hrel⟩
      · exact Or.inr h'

/-- The scanner never adds the run log to `seen`: `run.log` is not among
the fixed candidates and is not an `icons/icon_*.png` glob result. -/
theorem runlog_scan (jid : String) (fs seen : List String)
    (h : "run.log" ∉ seen) : "run.log" ∉ (_scan_artifacts jid fs seen).1 := by
  intro hmem
  rcases scanFrom_seen_from jid fs _ seen _ hmem with h' | h'
  · exact h h'
  · rcases List.mem_append.1 h' with h2 | h2
    · simp [fixedCandidates] at h2
    · have hic := (List.mem_filter.1 h2).2
      exact absurd hic (by decide)

/-- The loop never adds the run log to `seen`. -/
theorem runLoop_runlog (jid : String) :
    ∀ (cs : List Cycle) (st : LoopState) (t : Bool) (st' : LoopState)
      (rest : List Cycle),
      runLoop jid st cs = some (t, st', rest) →
      "run.log" ∉ st.seen → "run.log" ∉ st'.seen := by
  intro cs
  induction cs with
  | nil => intro st t st' rest h; simp [runLoop] at h
  | cons c cs ih =>
    intro st t st' rest h hno
    rcases runLoop_cons_cases jid st c cs t st' rest h with ⟨hseen, -⟩ | hrec
    · rw [hseen]
      exact runlog_scan jid c.files st.seen hno
    · exact ih _ _ st' rest hrec (runlog_scan jid c.files st.seen hno)

/-- An artifact event is not a status event. -/
theorem isArtifact_not_status (e : Ev) (h : e.isArtifact = true) :
    e.isStatus = false := by
  cases e <;> simp_all [Ev.isArtifact, Ev.isStatus]

/-- An artifact event is not the close event. -/
theorem isArtifact_not_close (e : Ev) (h : e.isArtifact = true) :
    e.isClose = false := by
  cases e <;> simp_all [Ev.isArtifact, Ev.isClose]

/-- C1: the full event sequence one monitor run publishes on the job's
bus is exactly one `started` status, then a middle consisting only of
`artifact` events (the concurrent drain threads add only `log` events),
then exactly one terminal `finished` status, then the run-log `artifact`
event, then exactly one `close` as the very last event; and after `done`
is set, the only event still published is `close` (so no `status` or
`artifact` event is produced once `done` is true). -/
theorem c1_event_sequence (inp : MonitorInput) (res : MonitorResult)
    (h : _monitor_job inp = some res) :
    ∃ mid fin,
      res.preDone ++ res.postDone =
        Ev.status "started" none none ::
          (mid ++ [fin, runLogEvent inp.job_id, Ev.close]) ∧
      (∀ e ∈ mid, e.isArtifact = true) ∧
      fin.isFinishedStatus = true ∧
      (res.preDone ++ res.postDone).countP Ev.isStatus = 2 ∧
      (res.preDone ++ res.postDone).countP Ev.isClose = 1 ∧
      (res.preDone ++ res.postDone).getLast? = some Ev.close ∧
      res.postDone = [Ev.close] := by
  rcases hrun : runLoop inp.job_id ⟨0, [], []⟩ inp.cycles with - | ⟨t, st, rem⟩
  · simp only [_monitor_job, hrun] at h
    exact Option.noConfusion h
  · simp only [_monitor_job, hrun] at h
    obtain rfl := (Option.some.inj h).symm
    have hmid : ∀ e ∈ st.events ++
        (_scan_artifacts inp.job_id inp.finalFs st.seen).2,
        e.isArtifact = true := by
      intro e he
      rcases List.mem_append.1 he with h' | h'
      · rcases runLoop_events_shape inp.job_id inp.cycles ⟨0, [], []⟩ t st rem
          hrun e h' with h2 | ⟨rel, hrel⟩
        · simp at h2
        · rw [hrel]; rfl
      · obtain ⟨rel, -, -, hrel⟩ :=
          scanFrom_events_shape inp.job_id inp.finalFs _ st.seen e h'
        rw [hrel]; rfl
    refine ⟨st.events ++ (_scan_artifacts inp.job_id inp.finalFs st.seen).2,
      finishedEvent t (if t then inp.termCode else some inp.exitCode)
        inp.exitStderr, ?_, hmid, ?_, ?_, ?_, ?_, rfl⟩
    · simp
    · cases t <;> rfl
    · have hms1 : st.events.countP Ev.isStatus = 0 := by
        rw [List.countP_eq_zero]
        intro e he
        rw [isArtifact_not_status e (hmid e (List.mem_append_left _ he))]
        simp
      have hms2 : (_scan_artifacts inp.job_id inp.finalFs st.seen).2.countP
          Ev.isStatus = 0 := by
        rw [List.countP_eq_zero]
        intro e he
        rw [isArtifact_not_status e (hmid e (List.mem_append_right _ he))]
        simp
      have hfs : (finishedEvent t (if t then inp.termCode else some inp.exitCode)
          inp.exitStderr).isStatus = true := by
        cases t <;> rfl
      have hE : Ev.isStatus (Ev.status "started" none none) = true := rfl
      have hlog : Ev.isStatus (runLogEvent inp.job_id) = false := rfl
      have hcl : Ev.isStatus Ev.close = false := rfl
      simp [List.countP_cons, List.countP_append, hms1, hms2, hfs, hE, hlog, hcl]
    · have hmc1 : st.events.countP Ev.isClose = 0 := by
        rw [List.countP_eq_zero]
        intro e he
        rw [isArtifact_not_close e (hmid e (List.mem_append_left _ he))]
        simp
      have hmc2 : (_scan_artifacts inp.job_id inp.finalFs st.seen).2.countP
          Ev.isClose = 0 := by
        rw [List.countP_eq_zero]
        intro e he
        rw [isArtifact_not_close e (hmid e (List.mem_append_right _ he))]
        simp
      have hfc : (finishedEvent t (if t then inp.termCode else some inp.exitCode)
          inp.exitStderr).isClose = false := by
        cases t <;> rfl
      have hE : Ev.isClose (Ev.status "started" none none) = false := rfl
      have hlog : Ev.isClose (runLogEvent inp.job_id) = false := rfl
      have hcl : Ev.isClose Ev.close = true := rfl
      simp [List.countP_cons, List.countP_append, hmc1, hmc2, hfc, hE, hlog, hcl]
    · show ((Ev.status "started" none none ::
          (st.events ++ (_scan_artifacts inp.job_id inp.finalFs st.seen).2
            ++ [finishedEvent t (if t then inp.termCode else some inp.exitCode)
                  inp.exitStderr, runLogEvent inp.job_id])) ++
          [Ev.close]).getLast? = some Ev.close
      exact List.getLast?_concat _

/-- Witness for C1 at the concrete input `c1Inp`. -/
theorem c1_event_sequence_witness :
    ∃ mid fin,
      c1Res.preDone ++ c1Res.postDone =
        Ev.status "started" none none ::
          (mid ++ [fin, runLogEvent c1Inp.job_id, Ev.close]) ∧
      (∀ e ∈ mid, e.isArtifact = true) ∧
      fin.isFinishedStatus = true ∧
      (c1Res.preDone ++ c1Res.postDone).countP Ev.isStatus = 2 ∧
      (c1Res.preDone ++ c1Res.postDone).countP Ev.isClose = 1 ∧
      (c1Res.preDone ++ c1Res.postDone).getLast? = some Ev.close ∧
      c1Res.postDone = [Ev.close] :=
  c1_event_sequence c1Inp c1Res (by rfl)

/-- C10: the run log's relative path is never added to `seen` (the
scanner's candidates exclude it, for any filesystem snapshot and any
`seen` not already containing it), so after a monitor run `run.log` is
not in the job's `seen`; the full published sequence of a run contains
exactly one `artifact` event with kind `"log"` (the monitor's final
bypassing push); and the replay to a late subscriber never contains an
artifact event for the run log. -/
theorem c10_runlog (inp : MonitorInput) (res : MonitorResult)
    (h : _monitor_job inp = some res) :
    (∀ (fs seen : List String), "run.log" ∉ seen →
      "run.log" ∉ (_scan_artifacts inp.job_id fs seen).1) ∧
    "run.log" ∉ res.job.seen ∧
    (res.preDone ++ res.postDone).countP (fun e => e.kind == some "log") = 1 ∧
    (∀ e ∈ replayEvents res.job, e.path ≠ some "run.log") := by
  rcases hrun : runLoop inp.job_id ⟨0, [], []⟩ inp.cycles with - | ⟨t, st, rem⟩
  · simp only [_monitor_job, hrun] at h
    exact Option.noConfusion h
  · simp only [_monitor_job, hrun] at h
    obtain rfl := (Option.some.inj h).symm
    have hst : "run.log" ∉ st.seen :=
      runLoop_runlog inp.job_id inp.cycles ⟨0, [], []⟩ t st rem hrun (by simp)
    have hseen : "run.log" ∉ (_scan_artifacts inp.job_id inp.finalFs st.seen).1 :=
      runlog_scan inp.job_id inp.finalFs st.seen hst
    have hmid : ∀ e ∈ st.events ++
        (_scan_artifacts inp.job_id inp.finalFs st.seen).2,
        ∃ rel, e = artifactEvent inp.job_id rel := by
      intro e he
      rcases List.mem_append.1 he with h' | h'
      · rcases runLoop_events_shape inp.job_id inp.cycles ⟨0, [], []⟩ t st rem
          hrun e h' with h2 | h2
        · simp at h2
        · exact h2
      · obtain ⟨rel, -, -, hrel⟩ :=
          scanFrom_events_shape inp.job_id inp.finalFs _ st.seen e h'
        exact ⟨rel, hrel⟩
    refine ⟨fun fs seen hno => runlog_scan inp.job_id fs seen hno, hseen, ?_, ?_⟩
    · have hm0 : (st.events ++
          (_scan_artifacts inp.job_id inp.finalFs st.seen).2).countP
            (fun e => e.kind == some "log") = 0 := by
        rw [List.countP_eq_zero]
        intro e he
        obtain ⟨rel, hrel⟩ := hmid e he
        rw [hrel]
        simp only [artifactEvent, Ev.kind, beq_iff_eq, Option.some.injEq]
        exact fun hc => classify_ne_log rel hc
      rw [List.countP_append] at hm0
      have hm1 : st.events.countP (fun e => e.kind == some "log") = 0 := by
        omega
      have hm2 : (_scan_artifacts inp.job_id inp.finalFs st.seen).2.countP
          (fun e => e.kind == some "log") = 0 := by
        omega
      have hfs : ((finishedEvent t
          (if t then inp.termCode else some inp.exitCode)
          inp.exitStderr).kind == some "log") = false := by
        cases t <;> rfl
      have hE : ((Ev.status "started" none none).kind == some "log") = false := rfl
      have hlog : ((runLogEvent inp.job_id).kind == some "log") = true := rfl
      have hcl : ((Ev.close : Ev).kind == some "log") = false := rfl
      simp [List.countP_cons, List.countP_append, hm1, hm2, hfs, hE,
        hlog, hcl]
    · intro e he
      rcases List.mem_append.1 he with h' | h'
      · obtain ⟨rel, hrel, hre⟩ := List.mem_map.1 h'
        rw [← hre]
        simp only [Ev.path, ne_eq, Option.some.injEq]
        intro hc
        exact hseen (hc ▸ hrel)
      · rw [List.mem_singleton.1 h']
        simp [Ev.path]

/-- Witness for C10 at the concrete input `c10Inp`: the job's final
`seen` excludes the run log, and exactly one kind-`log` artifact event
was published. -/
theorem c10_runlog_witness :
    "run.log" ∉ c10Res.job.seen ∧
    (c10Res.preDone ++ c10Res.postDone).countP
      (fun e => e.kind == some "log") = 1 :=
  ⟨(c10_runlog c10Inp c10Res (by rfl)).2.1,
   (c10_runlog c10Inp c10Res (by rfl)).2.2.1⟩

/-- An artifact event is not a finished-status event. -/
theorem isArtifact_not_finished (e : Ev) (h : e.isArtifact = true) :
    e.isFinishedStatus = false := by
  cases e <;> simp_all [Ev.isArtifact, Ev.isFinishedStatus]

/-- C2: the replay a subscriber attaching after `done` receives is one
`artifact` event per relative path in `seen` (in the stored order, and
nothing else), followed by exactly one `finished` status event, and the
stream ends there. -/
theorem c2_replay (job : FinalJob) (h : job.seen.Nodup) :
    ∃ arts fin,
      replayEvents job = arts ++ [fin] ∧
      arts.map Ev.path = job.seen.map some ∧
      (∀ e ∈ arts, e.isArtifact = true) ∧
      fin.isFinishedStatus = true ∧
      (replayEvents job).countP Ev.isStatus = 1 ∧
      ∀ p ∈ job.seen, arts.countP (fun e => e.path == some p) = 1 := by
  refine ⟨job.seen.map fun rel =>
      Ev.artifact (_classify_artifact rel) (pathName rel) rel
        ("/api/artifacts/" ++ job.job_id ++ "/" ++ rel),
    Ev.status "finished" job.returncode
      (if rcTruthy job.returncode && (job.last_stderr != "") then
        some job.last_stderr else none),
    rfl, ?_, ?_, rfl, ?_, ?_⟩
  · rw [List.map_map]
    rfl
  · intro e he
    obtain ⟨rel, -, hre⟩ := List.mem_map.1 he
    rw [← hre]
    rfl
  · have h0 : (job.seen.map fun rel =>
        Ev.artifact (_classify_artifact rel) (pathName rel) rel
          ("/api/artifacts/" ++ job.job_id ++ "/" ++ rel)).countP
          Ev.isStatus = 0 := by
      rw [List.countP_eq_zero]
      intro e he
      obtain ⟨rel, -, hre⟩ := List.mem_map.1 he
      rw [← hre]
      simp [Ev.isStatus]
    rw [replayEvents, List.countP_append, h0]
    rfl
  · intro p hp
    rw [List.countP_map]
    have hfun : ((fun e => e.path == some p) ∘ fun rel =>
        Ev.artifact (_classify_artifact rel) (pathName rel) rel
          ("/api/artifacts/" ++ job.job_id ++ "/" ++ rel)) =
        fun rel => rel == p := rfl
    rw [hfun]
    exact List.count_eq_one_of_mem h hp

/-- Witness for C2 on a finished job with one discovered artifact. -/
theorem c2_replay_witness :
    ∃ arts fin,
      replayEvents ⟨"rw", ["figure.png"], true, some 0, "", 5⟩ =
        arts ++ [fin] ∧
      arts.map Ev.path =
        (["figure.png"] : List String).map some ∧
      (∀ e ∈ arts, e.isArtifact = true) ∧
      fin.isFinishedStatus = true ∧
      (replayEvents ⟨"rw", ["figure.png"], true, some 0, "", 5⟩).countP
        Ev.isStatus = 1 ∧
      ∀ p ∈ (["figure.png"] : List String),
        arts.countP (fun e => e.path == some p) = 1 :=
  c2_replay ⟨"rw", ["figure.png"], true, some 0, "", 5⟩ (by decide)

/-- C3 counterexample: on a timed-out run (process alive with elapsed
601s > 600s budget, terminated with collected return code -15), the
`finished` status replayed to a late subscriber carries the raw process
return code `-15` and no error — not the claimed `code == -1` with a
non-empty timeout message. -/
theorem c3_counterexample :
    (_monitor_job ⟨"j", [⟨601, true, []⟩], [], 0, some (-15), "", 5⟩).map
        (fun res => (res.timed_out, (replayEvents res.job).getLast?)) =
      some (true, some (Ev.status "finished" (some (-15)) none)) ∧
    some (-15 : Int) ≠ some (-1 : Int) ∧
    601 > JOB_TIMEOUT_SECONDS := by
  exact ⟨by rfl, by decide, by decide⟩

/-- C3 (amended): on a timed-out run the subprocess is terminated, the
live terminal status event is exactly the fixed
`code == -1`/timeout-message payload (whose non-empty text contains the
configured timeout duration in minutes); the status event replayed to a
late subscriber is instead rebuilt from the process return code and the
last stderr line. -/
theorem c3_timeout (inp : MonitorInput) (res : MonitorResult)
    (h : _monitor_job inp = some res) (ht : res.timed_out = true) :
    res.terminated = true ∧
    res.preDone.filter Ev.isFinishedStatus =
      [Ev.status "finished" (some (-1)) (some timeoutError)] ∧
    timeoutError ≠ "" ∧
    (∃ a b, timeoutError = a ++ toString (JOB_TIMEOUT_SECONDS / 60) ++ b) ∧
    (replayEvents res.job).getLast? =
      some (Ev.status "finished" inp.termCode
        (if rcTruthy inp.termCode && (inp.exitStderr != "") then
          some inp.exitStderr else none)) := by
  rcases hrun : runLoop inp.job_id ⟨0, [], []⟩ inp.cycles with - | ⟨t, st, rem⟩
  · simp only [_monitor_job, hrun] at h
    exact Option.noConfusion h
  · simp only [_monitor_job, hrun] at h
    obtain rfl := (Option.some.inj h).symm
    have ht' : t = true := ht
    subst ht'
    have hmid : ∀ e ∈ st.events ++
        (_scan_artifacts inp.job_id inp.finalFs st.seen).2,
        e.isArtifact = true := by
      intro e he
      rcases List.mem_append.1 he with h' | h'
      · rcases runLoop_events_shape inp.job_id inp.cycles ⟨0, [], []⟩ true st
          rem hrun e h' with h2 | ⟨rel, hrel⟩
        · simp at h2
        · rw [hrel]; rfl
      · obtain ⟨rel, -, -, hrel⟩ :=
          scanFrom_events_shape inp.job_id inp.finalFs _ st.seen e h'
        rw [hrel]; rfl
    refine ⟨rfl, ?_, by decide, ⟨"任务超时（超过 ", " 分钟），已自动终止。", rfl⟩, ?_⟩
    · have hmidf : (st.events ++
          (_scan_artifacts inp.job_id inp.finalFs st.seen).2).filter
            Ev.isFinishedStatus = [] := by
        rw [List.filter_eq_nil_iff]
        intro e he
        rw [isArtifact_not_finished e (hmid e he)]
        simp
      rw [List.filter_append] at hmidf
      have hml : (st.events.filter Ev.isFinishedStatus).length +
          ((_scan_artifacts inp.job_id inp.finalFs st.seen).2.filter
            Ev.isFinishedStatus).length = 0 := by
        rw [← List.length_append, hmidf]
        rfl
      have hm1 : st.events.filter Ev.isFinishedStatus = [] :=
        List.eq_nil_of_length_eq_zero (by omega)
      have hm2 : (_scan_artifacts inp.job_id inp.finalFs st.seen).2.filter
          Ev.isFinishedStatus = [] :=
        List.eq_nil_of_length_eq_zero (by omega)
      show (Ev.status "started" none none ::
          (st.events ++ (_scan_artifacts inp.job_id inp.finalFs st.seen).2
            ++ [finishedEvent true inp.termCode inp.exitStderr,
                runLogEvent inp.job_id])).filter Ev.isFinishedStatus =
        [Ev.status "finished" (some (-1)) (some timeoutError)]
      rw [List.filter_cons, List.filter_append, List.filter_append, hm1, hm2]
      rfl
    · simp only [replayEvents]
      exact List.getLast?_concat _

/-- Witness for C3 (amended) at the concrete timed-out input `c3Inp`. -/
theorem c3_timeout_witness :
    c3Res.terminated = true ∧
    c3Res.preDone.filter Ev.isFinishedStatus =
      [Ev.status "finished" (some (-1)) (some timeoutError)] ∧
    (replayEvents c3Res.job).getLast? =
      some (Ev.status "finished" c3Inp.termCode
        (if rcTruthy c3Inp.termCode && (c3Inp.exitStderr != "") then
          some c3Inp.exitStderr else none)) :=
  ⟨(c3_timeout c3Inp c3Res (by rfl) (by rfl)).1,
   (c3_timeout c3Inp c3Res (by rfl) (by rfl)).2.1,
   (c3_timeout c3Inp c3Res (by rfl) (by rfl)).2.2.2.2⟩

/-- C7: cancellation never mutates the registry (in particular it never
sets `done` — finalization is left to the monitor loop); an unknown id
reports `notFound` with no termination request; a finished job reports
the distinct `already_finished` outcome with no termination request; a
non-finished job reports `cancelled` and requests subprocess
termination. -/
theorem c7_cancel (jobs : List (String × FinalJob)) (job_id : String) :
    (cancel_job jobs job_id).jobs = jobs ∧
    (jobs.lookup job_id = none →
      (cancel_job jobs job_id).status = .notFound ∧
      (cancel_job jobs job_id).terminateRequested = false) ∧
    (∀ j, jobs.lookup job_id = some j → j.done = true →
      (cancel_job jobs job_id).status = .alreadyFinished ∧
      (cancel_job jobs job_id).terminateRequested = false) ∧
    (∀ j, jobs.lookup job_id = some j → j.done = false →
      (cancel_job jobs job_id).status = .cancelled ∧
      (cancel_job jobs job_id).terminateRequested = true) := by
  rcases hl : jobs.lookup job_id with - | j
  · refine ⟨by simp [cancel_job, hl], fun _ => by simp [cancel_job, hl],
      ?_, ?_⟩
    · intro j hj
      exact Option.noConfusion hj
    · intro j hj
      exact Option.noConfusion hj
  · refine ⟨?_, ?_, ?_, ?_⟩
    · by_cases hd : j.done <;> simp [cancel_job, hl, hd]
    · intro hnone
      exact Option.noConfusion hnone
    · intro j' hj' hdone
      obtain rfl := Option.some.inj hj'
      simp [cancel_job, hl, hdone]
    · intro j' hj' hdone
      obtain rfl := Option.some.inj hj'
      simp [cancel_job, hl, hdone]

/-- Witness for C7 on a registry with one finished and one running job. -/
theorem c7_cancel_witness :
    (cancel_job [("a", ⟨"a", [], true, some 0, "", 5⟩),
        ("b", ⟨"b", [], false, none, "", 0⟩)] "a").status =
      CancelStatus.alreadyFinished ∧
    (cancel_job [("a", ⟨"a", [], true, some 0, "", 5⟩),
        ("b", ⟨"b", [], false, none, "", 0⟩)] "b").status =
      CancelStatus.cancelled ∧
    (cancel_job [("a", ⟨"a", [], true, some 0, "", 5⟩),
        ("b", ⟨"b", [], false, none, "", 0⟩)] "b").terminateRequested = true ∧
    (cancel_job [("a", ⟨"a", [], true, some 0, "", 5⟩),
        ("b", ⟨"b", [], false, none, "", 0⟩)] "z").status =
      CancelStatus.notFound :=
  ⟨((c7_cancel [("a", ⟨"a", [], true, some 0, "", 5⟩),
      ("b", ⟨"b", [], false, none, "", 0⟩)] "a").2.2.1 _ (by rfl) (by rfl)).1,
   ((c7_cancel [("a", ⟨"a", [], true, some 0, "", 5⟩),
      ("b", ⟨"b", [], false, none, "", 0⟩)] "b").2.2.2 _ (by rfl) (by rfl)).1,
   ((c7_cancel [("a", ⟨"a", [], true, some 0, "", 5⟩),
      ("b", ⟨"b", [], false, none, "", 0⟩)] "b").2.2.2 _ (by rfl) (by rfl)).2,
   ((c7_cancel [("a", ⟨"a", [], true, some 0, "", 5⟩),
      ("b", ⟨"b", [], false, none, "", 0⟩)] "z").2.1 (by rfl)).1⟩

/-- C8: after a sweep at time `now`, under the monitor-established
invariant that finished jobs carry a positive `finished_at`, every entry
that is done and finished longer than the retention window ago is gone,
every other entry is still present unchanged, and the sweep only removes
entries (everything in the swept registry was there before). -/
theorem c8_retention (now : Nat) (jobs : List (String × FinalJob))
    (hinv : ∀ p ∈ jobs, p.2.done = true → 0 < p.2.finished_at) :
    (∀ p ∈ jobs, p.2.done = true ∧
        now - p.2.finished_at > JOB_RETENTION_SECONDS →
      p ∉ _cleanup_old_jobs now jobs) ∧
    (∀ p ∈ jobs, ¬(p.2.done = true ∧
        now - p.2.finished_at > JOB_RETENTION_SECONDS) →
      p ∈ _cleanup_old_jobs now jobs) ∧
    (∀ p ∈ _cleanup_old_jobs now jobs, p ∈ jobs) := by
  refine ⟨?_, ?_, ?_⟩
  · rintro p hp ⟨hdone, hold⟩ hmem
    have hpred := (List.mem_filter.1 hmem).2
    simp [hdone, hold, hinv p hp hdone] at hpred
  · intro p hp hnot
    refine List.mem_filter.2 ⟨hp, ?_⟩
    by_cases hd : p.2.done = true
    · have hnotold : ¬(now - p.2.finished_at > JOB_RETENTION_SECONDS) :=
        fun hold => hnot ⟨hd, hold⟩
      simp [_cleanup_old_jobs, hd, hnotold]
    · have hd' : p.2.done = false := by
        cases hdb : p.2.done
        · rfl
        · exact absurd hdb hd
      simp [_cleanup_old_jobs, hd']
  · intro p hp
    exact (List.mem_filter.1 hp).1

/-- Witness for C8 on `c8Jobs` at time `10000`: the expired job is
evicted, the fresh one and the running one survive. -/
theorem c8_retention_witness :
    ("a", (⟨"a", [], true, some 0, "", 100⟩ : FinalJob)) ∉
      _cleanup_old_jobs 10000 c8Jobs ∧
    ("b", (⟨"b", [], true, some 0, "", 9000⟩ : FinalJob)) ∈
      _cleanup_old_jobs 10000 c8Jobs ∧
    ("c", (⟨"c", [], false, none, "", 0⟩ : FinalJob)) ∈
      _cleanup_old_jobs 10000 c8Jobs :=
  ⟨(c8_retention 10000 c8Jobs (by decide)).1 _ (by decide) (by decide),
   (c8_retention 10000 c8Jobs (by decide)).2.1 _ (by decide) (by decide),
   (c8_retention 10000 c8Jobs (by decide)).2.1 _ (by decide) (by decide)⟩

/-- `pathChars` is a homomorphism for segment concatenation. -/
theorem pathChars_append (xs ys : List String) :
    pathChars (xs ++ ys) = pathChars xs ++ pathChars ys := by
  induction xs with
  | nil => simp [pathChars]
  | cons s rest ih => simp [pathChars, ih]

/-- C4 counterexample: for the job `j1`, the request path `../j1x/a.png`
resolves to the sibling directory `outputs/j1x` — outside the owning
directory — yet `get_artifact` serves the file, because the string
`/srv/outputs/j1x/a.png` does start with `/srv/outputs/j1`. -/
theorem c4_counterexample :
    get_artifact ["srv", "outputs"]
        [("j1", ⟨"j1", [], true, some 0, "", 5⟩)]
        [["srv", "outputs", "j1x", "a.png"]] "j1" "../j1x/a.png" =
      .file ["srv", "outputs", "j1x", "a.png"] ∧
    segsUnder (["srv", "outputs"] ++ ["j1"])
      ["srv", "outputs", "j1x", "a.png"] = false ∧
    artifactCandidate ["srv", "outputs"] "j1" "../j1x/a.png" =
      ["srv", "outputs", "j1x", "a.png"] :=
  ⟨by rfl, by decide, by rfl⟩

/-- C4 (amended): for a registered job, the fetch is rejected with
`invalidPath` exactly when the resolved candidate's path string does not
start with the output directory's path string; that rejection is
independent of the filesystem; and a candidate genuinely under the
output directory is never rejected — but, as the counterexample shows,
a path resolving to a sibling whose name extends the job's directory
name passes the string test despite escaping the directory. -/
theorem c4_fetch (outRoot : List String) (jobs : List (String × FinalJob))
    (fs : List (List String)) (job_id path : String) (j : FinalJob)
    (hj : jobs.lookup job_id = some j) :
    (get_artifact outRoot jobs fs job_id path = .invalidPath ↔
      (pathChars (outRoot ++ [job_id])).isPrefixOf
        (pathChars (artifactCandidate outRoot job_id path)) = false) ∧
    (segsUnder (outRoot ++ [job_id])
        (artifactCandidate outRoot job_id path) = true →
      get_artifact outRoot jobs fs job_id path ≠ .invalidPath) ∧
    ((pathChars (outRoot ++ [job_id])).isPrefixOf
        (pathChars (artifactCandidate outRoot job_id path)) = false →
      ∀ fs2, get_artifact outRoot jobs fs2 job_id path = .invalidPath) := by
  have hiff : ∀ (fs' : List (List String)),
      get_artifact outRoot jobs fs' job_id path = .invalidPath ↔
      (pathChars (outRoot ++ [job_id])).isPrefixOf
        (pathChars (artifactCandidate outRoot job_id path)) = false := by
    intro fs'
    simp only [get_artifact, hj]
    by_cases hpre : (pathChars (outRoot ++ [job_id])).isPrefixOf
        (pathChars (artifactCandidate outRoot job_id path)) = false
    · rw [if_pos hpre]
      exact ⟨fun _ => hpre, fun _ => rfl⟩
    · rw [if_neg hpre]
      constructor
      · intro hres
        by_cases hc : fs'.contains (artifactCandidate outRoot job_id path) = false
        · rw [if_pos hc] at hres
          exact ArtifactResponse.noConfusion hres
        · rw [if_neg hc] at hres
          exact ArtifactResponse.noConfusion hres
      · intro hc
        exact absurd hc hpre
  refine ⟨hiff fs, ?_, fun hpre fs2 => (hiff fs2).2 hpre⟩
  intro hunder hres
  have hpre := (hiff fs).1 hres
  have hseg : (outRoot ++ [job_id]) <+:
      artifactCandidate outRoot job_id path :=
    List.isPrefixOf_iff_prefix.1 hunder
  obtain ⟨t, ht⟩ := hseg
  rw [← ht, pathChars_append (outRoot ++ [job_id]) t] at hpre
  have : (pathChars (outRoot ++ [job_id])).isPrefixOf
      (pathChars (outRoot ++ [job_id]) ++ pathChars t) = true :=
    List.isPrefixOf_iff_prefix.2 (List.prefix_append _ _)
  rw [this] at hpre
  exact Bool.noConfusion hpre

/-- Witness for C4 (amended): a well-formed relative path stays under
the output directory and is not rejected. -/
theorem c4_fetch_witness :
    segsUnder (["srv", "outputs"] ++ ["j2"])
        (artifactCandidate ["srv", "outputs"] "j2" "a.png") = true ∧
    get_artifact ["srv", "outputs"]
        [("j2", ⟨"j2", [], true, some 0, "", 5⟩)] [] "j2" "a.png" ≠
      ArtifactResponse.invalidPath :=
  ⟨by decide,
   (c4_fetch ["srv", "outputs"] [("j2", ⟨"j2", [], true, some 0, "", 5⟩)]
      [] "j2" "a.png" _ (by rfl)).2.1 (by decide)⟩

end Theorems

end AutofigureSvg
